import Mathlib

/-!
Verification of the gmutex global-mutex package (a mutual-exclusion lock
stored as a Google Cloud Storage object).

The Go source is shallowly embedded:

* machine integers (`int64`, `time.Duration` = int64 nanoseconds) are `Int`
  with an explicit two's-complement wrap `wrap64` at the operations where
  Go arithmetic can overflow;
* Go `/` and `%` on int64 truncate toward zero: they are `Int.tdiv` and
  `Int.tmod`;
* `time.Time` values produced by `http.ParseTime` are second-resolution
  wall-clock times, modelled as a pair of second and nanosecond counts
  (`GoTime`); `time.Time.Add` and `time.Time.Before` are `timeAdd` and
  `timeBefore` (the saturation in `Time.addSec` only triggers beyond
  roughly 2.9e11 years, unreachable from parsed HTTP dates, and is not
  modelled);
* an HTTP response is modelled as the data the code extracts from it: a
  status code, the `x-goog-generation` header, and the parse results of
  the `Date`, `Last-Modified`, `x-goog-expiration` and `x-goog-meta-ttl`
  headers (`none` = header missing or unparseable);
* the remote store and the network are an oracle: a finite list of
  `StoreEv` events, one consumed per HTTP request issued, each being
  either a transport error (`HTTPClient.Do` returned non-nil) or a
  response; an exhausted list behaves as a non-retriable transport error;
* context cancellation is a list of booleans, one consumed per backoff
  wait (`true` = the context fired during that wait); an exhausted list
  means the context never fires;
* loops take fuel; running out of fuel yields a dedicated outcome that no
  theorem identifies with a source behaviour;
* Go `panic` is the `GoResult.panics` constructor, carrying the panic
  message.
-/

namespace GMutex

/-- Two's-complement wraparound of signed 64-bit integer arithmetic:
maps an integer to its representative in `[-2^63, 2^63)`. -/
def wrap64 (x : Int) : Int := (x + 2 ^ 63) % 2 ^ 64 - 2 ^ 63

/-- Go integer division on int64: truncation toward zero. -/
def goDivInt (a b : Int) : Int := Int.tdiv a b

/-- Go integer remainder on int64: sign of the dividend. -/
def goModInt (a b : Int) : Int := Int.tmod a b

/-- Nanoseconds per second; `time.Second` as an int64 duration. -/
def nsPerSec : Int := 1000000000

/-- A wall-clock `time.Time` as produced by `http.ParseTime`: whole
seconds (Go stores seconds since year 1; the origin is irrelevant here)
plus a nanosecond part in `[0, 1e9)`.  Parsed HTTP dates always have a
zero nanosecond part. -/
structure GoTime where
  sec : Int
  nsec : Int
deriving DecidableEq

/-- Model of `time.Time.Add`: the duration `d` (int64 nanoseconds) is
split into seconds and nanoseconds by truncating division, and the
nanosecond field is renormalised into `[0, 1e9)` exactly as in Go's
implementation. -/
def timeAdd (t : GoTime) (d : Int) : GoTime :=
  let dsec := goDivInt d nsPerSec
  let nsec := t.nsec + goModInt d nsPerSec
  if nsec ≥ nsPerSec then ⟨t.sec + dsec + 1, nsec - nsPerSec⟩
  else if nsec < 0 then ⟨t.sec + dsec - 1, nsec + nsPerSec⟩
  else ⟨t.sec + dsec, nsec⟩

/-- Model of `time.Time.Before`: strict lexicographic comparison of the
second and nanosecond counts. -/
def timeBefore (t u : GoTime) : Bool :=
  decide (t.sec < u.sec) || (t.sec == u.sec && decide (t.nsec < u.nsec))

/-- A transport-level error returned by `HTTPClient.Do`, reduced to the
two predicates the code consults (via `url.Error`): whether the wrapped
error reports itself temporary, and whether it reports a timeout. -/
structure GoError where
  temporary : Bool
  timeout : Bool
deriving DecidableEq

/-- An HTTP response, reduced to the data the package reads from it.
`status` is the status code; `gen` is the `x-goog-generation` header
(empty string when absent); the four `Option Int` fields are the results
of `http.ParseTime` on `Date`, `Last-Modified` and `x-goog-expiration`
(timestamps in whole seconds) and of `strconv.ParseInt` on
`x-goog-meta-ttl` (`none` = missing or unparseable). -/
structure Resp where
  status : Int
  gen : String
  date : Option Int := none
  lastModified : Option Int := none
  expiration : Option Int := none
  ttlMeta : Option Int := none
deriving DecidableEq

/-- The expiration oracle, function `expired` of gmutex.go.  Parses the
server `Date` (now), `Last-Modified` (modified) and `x-goog-expiration`
headers; the latter is unconditionally overwritten with `now` because of
the `if err != nil || true` in the source.  A missing or non-positive
`x-goog-meta-ttl` means not expired.  Otherwise the lock is expired when
`modified + ttl seconds` is strictly before `now` (the second disjunct,
`expiration.Before(now)`, is identically false).  The conversion
`time.Duration(ttl) * time.Second` is int64 multiplication and wraps. -/
def expired (r : Resp) : Bool :=
  match r.date with
  | none => false
  | some nowSec =>
    let now : GoTime := ⟨nowSec, 0⟩
    match r.lastModified with
    | none => false
    | some modSec =>
      let modified : GoTime := ⟨modSec, 0⟩
      let expiration : GoTime :=
        if r.expiration.isNone || true then now else ⟨r.expiration.getD 0, 0⟩
      match r.ttlMeta with
      | none => false
      | some ttl =>
        if ttl ≤ 0 then false
        else
          let expires := timeAdd modified (wrap64 (ttl * nsPerSec))
          timeBefore expires now || timeBefore expiration now

/-- The retry classifier, function `retriable` of gmutex.go.  A non-nil
transport error is retried iff `url.Error` reports it temporary or timed
out; with a nil error the listed statuses are retried. -/
def retriable (status : Int) (err : Option GoError) : Bool :=
  match err with
  | some e => e.temporary || e.timeout
  | none =>
    status == 429 || status == 408 || status == 500 ||
    status == 503 || status == 502 || status == 504

/-- The local lock handle, struct `Mutex` of gmutex.go: bucket and object
name, the held generation (empty string = not held), and the time-to-live
in whole seconds. -/
structure Mutex where
  bucket : String
  object : String
  generation : String
  ttl : Int
deriving DecidableEq

/-- Method `SetTTL`: `ttl += time.Second - time.Nanosecond` (int64
addition, wraps), then store `ttl / time.Second` when positive, else 0. -/
def SetTTL (m : Mutex) (d : Int) : Mutex :=
  let t := wrap64 (d + (nsPerSec - 1))
  if t > 0 then { m with ttl := goDivInt t nsPerSec } else { m with ttl := 0 }

/-- Method `TTL`: `time.Duration(m.ttl) * time.Second`, an int64
multiplication (it never overflows for values `SetTTL` stores). -/
def TTL (m : Mutex) : Int := wrap64 (m.ttl * nsPerSec)

/-- Backoff floor, `backOffMin = 50 * time.Millisecond`, in nanoseconds.
Backoff state is non-negative throughout, so durations are `Nat` here. -/
def backOffMin : Nat := 50000000

/-- Backoff ceiling, `backOffMax = 30 * time.Second`, in nanoseconds. -/
def backOffMax : Nat := 30000000000

/-- One `linBackOff.wait` state update: add 50ms, clamp into
`[backOffMin, backOffMax]`.  The jittered delay is then drawn uniformly
from `[0, state)` by `rand.Int63n`. -/
def linStep (t : Nat) : Nat :=
  let t := t + backOffMin
  let t := if t < backOffMin then backOffMin else t
  if t > backOffMax then backOffMax else t

/-- One `expBackOff.wait` state update: `b.time += b.time / 2` (integer
division), clamp into `[backOffMin, backOffMax]`. -/
def expStep (t : Nat) : Nat :=
  let t := t + t / 2
  let t := if t < backOffMin then backOffMin else t
  if t > backOffMax then backOffMax else t

/-- Backoff state of a fresh `linBackOff` after its n-th `wait` call
(the zero value of the struct is 0; each public operation declares a
fresh struct).  The n-th delay is drawn uniformly from
`[0, linState n)`. -/
def linState : Nat → Nat
  | 0 => 0
  | n + 1 => linStep (linState n)

/-- Backoff state of a fresh `expBackOff` after its n-th `wait` call.
The n-th delay is drawn uniformly from `[0, expState n)`. -/
def expState : Nat → Nat
  | 0 => 0
  | n + 1 => expStep (expState n)

end GMutex

namespace GMutex

/-- Demonstration handle used for concrete evaluations. -/
def mDemo : Mutex := ⟨"bucket", "object", "", 0⟩

theorem wrap64_eq_self {x : Int} (h1 : -(2 ^ 63) ≤ x) (h2 : x < 2 ^ 63) :
    wrap64 x = x := by
  have e63 : (2 : Int) ^ 63 = 9223372036854775808 := by norm_num
  have e64 : (2 : Int) ^ 64 = 18446744073709551616 := by norm_num
  unfold wrap64
  rw [e63] at h1 h2 ⊢
  rw [e64]
  omega

theorem wrap64_bounds (x : Int) : -(2 ^ 63) ≤ wrap64 x ∧ wrap64 x < 2 ^ 63 := by
  have e63 : (2 : Int) ^ 63 = 9223372036854775808 := by norm_num
  have e64 : (2 : Int) ^ 64 = 18446744073709551616 := by norm_num
  unfold wrap64
  rw [e63, e64]
  omega

/-- Claim C6: the retry classifier marks an outcome transient exactly when
the transport error is flagged temporary or timed out, or when the error
is nil and the status is one of 408, 429, 500, 502, 503, 504. -/
theorem retriable_characterisation :
    ∀ (status : Int) (err : Option GoError),
      retriable status err = true ↔
        ((∃ e, err = some e ∧ (e.temporary = true ∨ e.timeout = true)) ∨
          (err = none ∧ (status = 408 ∨ status = 429 ∨ status = 500 ∨
            status = 502 ∨ status = 503 ∨ status = 504))) := by
  intro status err
  cases err with
  | none =>
    constructor
    · intro h
      refine Or.inr ⟨rfl, ?_⟩
      simp only [retriable, Bool.or_eq_true, beq_iff_eq] at h
      tauto
    · intro h
      simp only [retriable, Bool.or_eq_true, beq_iff_eq]
      rcases h with ⟨e, he, _⟩ | ⟨-, h⟩
      · exact absurd he (by simp)
      · tauto
  | some e =>
    constructor
    · intro h
      refine Or.inl ⟨e, rfl, ?_⟩
      simp only [retriable, Bool.or_eq_true] at h
      exact h
    · intro h
      simp only [retriable, Bool.or_eq_true]
      rcases h with ⟨e2, he2, h⟩ | ⟨he, -⟩
      · cases he2
        exact h
      · exact absurd he (by simp)

end GMutex

namespace GMutex

theorem timeAdd_whole_seconds (s t : Int) :
    timeAdd ⟨s, 0⟩ (t * nsPerSec) = ⟨s + t, 0⟩ := by
  unfold timeAdd goDivInt goModInt
  rw [Int.mul_tdiv_cancel t (by norm_num [nsPerSec]), Int.mul_tmod_left]
  simp [nsPerSec]

/-- Claim C1 (amended): the oracle returns not-expired whenever `Date`,
`Last-Modified` or the ttl metadata is missing or unparseable, or the ttl
is non-positive; `x-goog-expiration` never affects the result; and when
the ttl `t` parses as a positive integer with `t ≤ 9223372036` (so that
`t` seconds fits an int64 nanosecond count), the oracle reports expired
exactly when `lastModified + t < date`.  (For larger parseable `t` the
int64 conversion `time.Duration(t) * time.Second` wraps and the oracle
can report expired even though `lastModified + t ≥ date`; see the
counterexample.) -/
theorem expired_characterisation :
    ∀ r : Resp,
      ((r.date = none ∨ r.lastModified = none ∨ r.ttlMeta = none) →
          expired r = false)
      ∧ (∀ t, r.ttlMeta = some t → t ≤ 0 → expired r = false)
      ∧ (∀ x, expired { r with expiration := x } = expired r)
      ∧ (∀ t mo n, r.date = some n → r.lastModified = some mo →
          r.ttlMeta = some t → 0 < t → t ≤ 9223372036 →
          (expired r = true ↔ mo + t < n)) := by
  intro r
  obtain ⟨st, g, d, lm, ex, tm⟩ := r
  refine ⟨?_, ?_, ?_, ?_⟩
  · rintro (h | h | h)
    · subst h; cases lm <;> cases tm <;> simp [expired]
    · subst h; cases d <;> cases tm <;> simp [expired]
    · subst h; cases d <;> cases lm <;> simp [expired]
  · rintro t rfl ht
    cases d <;> cases lm <;> simp [expired, ht]
  · intro x
    cases d <;> cases lm <;> cases tm <;> simp [expired]
  · rintro t mo n rfl rfl rfl ht hb
    have hpos : ¬ t ≤ 0 := by omega
    have hns : nsPerSec = 1000000000 := rfl
    have e63 : (2 : Int) ^ 63 = 9223372036854775808 := by norm_num
    have hw : wrap64 (t * nsPerSec) = t * nsPerSec := by
      refine wrap64_eq_self ?_ ?_ <;> rw [hns, e63] <;> omega
    simp only [expired, hpos, if_false, hw, timeAdd_whole_seconds, timeBefore]
    simp

end GMutex

namespace GMutex

/-- Counterexample to claim C1 as frozen: a response whose ttl metadata
parses as the positive integer 10^10 (more than 292 years, beyond what
fits an int64 nanosecond count) with `Last-Modified` = `Date`.  Here
`M + T` seconds is not before `N`, yet the oracle reports expired,
because `time.Duration(ttl) * time.Second` wraps around. -/
theorem expired_overflow_counterexample :
    expired { status := 200, gen := "", date := some 0, lastModified := some 0,
              ttlMeta := some 10000000000 } = true
    ∧ ¬((0 : Int) + 10000000000 < 0) := by
  constructor
  · decide
  · decide

/-- Response used by the C1 witness: modified 0, now 100, ttl 10 seconds. -/
def respDemo : Resp :=
  { status := 200, gen := "", date := some 100, lastModified := some 0,
    ttlMeta := some 10 }

/-- Witness: the amended C1 theorem applied at a concrete expired
response (modified 0, now 100, ttl 10 seconds). -/
theorem expired_characterisation_witness : expired respDemo = true := by
  have h := (expired_characterisation respDemo).2.2.2 10 0 100 rfl rfl rfl
      (by decide) (by decide)
  exact h.mpr (by decide)

/-- Claim C5 (amended): over the int64 range, `SetTTL` stores 0 whole
seconds for non-positive durations, and stores `ceil(d / 1s)` for
positive durations `d` for which the round-up addition
`d + (time.Second - time.Nanosecond)` does not overflow int64 (for larger
`d` the addition wraps and 0 is stored; see the counterexample); `TTL`
reports back exactly the stored seconds; and the nine table inputs
read back as (0s, 0s, 1s, 1s, 1s, 1s, 1s, 2s, 0s). -/
theorem setTTL_stores_ceil_seconds :
    (∀ (m : Mutex) (d : Int), -(2 ^ 63) ≤ d → d < 2 ^ 63 →
        ((d ≤ 0 → (SetTTL m d).ttl = 0)
          ∧ (0 < d → d + (nsPerSec - 1) < 2 ^ 63 →
              (SetTTL m d).ttl = (d + (nsPerSec - 1)) / nsPerSec)
          ∧ TTL (SetTTL m d) = (SetTTL m d).ttl * nsPerSec))
    ∧ (TTL (SetTTL mDemo 0) = 0 ∧ TTL (SetTTL mDemo (-1)) = 0
        ∧ TTL (SetTTL mDemo 1) = nsPerSec
        ∧ TTL (SetTTL mDemo 1000) = nsPerSec
        ∧ TTL (SetTTL mDemo 1000000) = nsPerSec
        ∧ TTL (SetTTL mDemo nsPerSec) = nsPerSec
        ∧ TTL (SetTTL mDemo (nsPerSec - 1)) = nsPerSec
        ∧ TTL (SetTTL mDemo (nsPerSec + 1)) = 2 * nsPerSec
        ∧ TTL (SetTTL mDemo (-3600 * nsPerSec)) = 0) := by
  constructor
  · intro m d hlo hhi
    have hns : nsPerSec = 1000000000 := rfl
    have e63 : (2 : Int) ^ 63 = 9223372036854775808 := by norm_num
    by_cases hov : d + (nsPerSec - 1) < 2 ^ 63
    · -- the round-up addition does not overflow
      have hw : wrap64 (d + (nsPerSec - 1)) = d + (nsPerSec - 1) := by
        refine wrap64_eq_self ?_ hov
        rw [hns, e63] at *
        omega
      refine ⟨?_, ?_, ?_⟩
      · intro hd0
        simp only [SetTTL, hw]
        split
        · rename_i hpos
          simp only [goDivInt]
          rw [Int.tdiv_eq_ediv (by omega) (by rw [hns]; omega)]
          rw [hns] at *
          omega
        · rfl
      · intro hd0 _
        have hpos : wrap64 (d + (nsPerSec - 1)) > 0 := by rw [hw, hns] at *; omega
        simp only [SetTTL, hw] at hpos ⊢
        rw [if_pos hpos]
        simp only [goDivInt]
        rw [Int.tdiv_eq_ediv (by rw [hns] at *; omega) (by rw [hns]; omega)]
      · -- TTL reads back the stored seconds: no overflow in the read-out
        have hstore : 0 ≤ (SetTTL m d).ttl ∧ (SetTTL m d).ttl ≤ 9223372036 := by
          simp only [SetTTL, hw]
          split
          · rename_i hpos
            simp only [goDivInt]
            rw [Int.tdiv_eq_ediv (by omega) (by rw [hns]; omega)]
            rw [hns] at *
            omega
          · simp
        simp only [TTL]
        refine wrap64_eq_self ?_ ?_ <;> rw [hns, e63] at * <;> omega
    · -- the round-up addition overflows: d is huge, the sum wraps negative
      have hd0 : ¬ d ≤ 0 := by rw [hns] at hov; rw [e63] at *; omega
      have hneg : wrap64 (d + (nsPerSec - 1)) ≤ 0 := by
        have h1 : d + (nsPerSec - 1) - 2 ^ 64 < 0 := by rw [hns, e63] at *; norm_num at *; omega
        have h2 : -(2 ^ 63) ≤ d + (nsPerSec - 1) - 2 ^ 64 := by rw [hns, e63] at *; norm_num at *; omega
        have h3 : wrap64 (d + (nsPerSec - 1)) = d + (nsPerSec - 1) - 2 ^ 64 := by
          unfold wrap64
          rw [e63] at *
          norm_num at *
          omega
        omega
      refine ⟨fun h => absurd h hd0, fun _ h => absurd h hov, ?_⟩
      have hz : (SetTTL m d).ttl = 0 := by
        simp only [SetTTL]
        rw [if_neg (by omega)]
      simp only [TTL]
      rw [hz]
      decide
  · refine ⟨?_, ?_, ?_, ?_, ?_, ?_, ?_, ?_, ?_⟩ <;> decide

end GMutex

namespace GMutex

/-- Counterexample to claim C5 as frozen: the maximal int64 duration
`2^63 - 1` nanoseconds is positive, but the round-up addition inside
`SetTTL` wraps to a negative int64, so 0 is stored instead of
`ceil(d / 1s) = 9223372037`. -/
theorem setTTL_overflow_counterexample :
    (0 : Int) < 2 ^ 63 - 1
    ∧ (SetTTL mDemo (2 ^ 63 - 1)).ttl = 0
    ∧ ((2 ^ 63 - 1 : Int) + (nsPerSec - 1)) / nsPerSec = 9223372037 := by
  refine ⟨by decide, by decide, by decide⟩

/-- Witness: the amended C5 theorem applied at 1.5 seconds, which rounds
up to 2 stored seconds. -/
theorem setTTL_stores_ceil_seconds_witness :
    (SetTTL mDemo 1500000000).ttl = 2 := by
  have h := (setTTL_stores_ceil_seconds.1 mDemo 1500000000 (by decide)
      (by decide)).2.1 (by decide) (by decide)
  rw [h]
  decide

theorem linStep_eq (t : Nat) : linStep t = min (t + backOffMin) backOffMax := by
  simp only [linStep, backOffMin, backOffMax]
  split <;> rename_i h1
  · omega
  · split <;> omega

theorem expStep_lower (t : Nat) : backOffMin ≤ expStep t := by
  simp only [expStep, backOffMin, backOffMax]
  split <;> rename_i h1
  · split <;> omega
  · split <;> omega

theorem expState_from17 : ∀ k : Nat, expState (17 + k) = backOffMax := by
  intro k
  induction k with
  | zero => decide
  | succ k ih =>
    have h : 17 + (k + 1) = (17 + k) + 1 := by omega
    rw [h]
    simp only [expState, ih]
    decide

/-- Claim C8 (amended): per public operation the backoff structs start at
their zero value; the n-th linear wait draws uniformly from
`[0, min(n * 50ms, 30s))` exactly as claimed; the n-th exponential wait
draws uniformly from `[0, expState n)`, where the bound follows the
integer recurrence `b += b/2` clamped into `[50ms, 30s]`: it equals
`50ms * 1.5^(n-1)` exactly while that value is a whole number of
nanoseconds (n ≤ 8), equals 30s from n = 17 on, and for 9 ≤ n ≤ 16 the
truncating division makes it lag `50ms * 1.5^(n-1)` by a few nanoseconds
(strictly below it, within 64ns); both bounds are positive, so a zero
delay is always drawable. -/
theorem backoff_bounds :
    (∀ n, 1 ≤ n → linState n = min (n * backOffMin) backOffMax)
    ∧ (∀ n, 1 ≤ n → n ≤ 8 →
        2 ^ (n - 1) * expState n = backOffMin * 3 ^ (n - 1))
    ∧ (∀ n, 9 ≤ n → n ≤ 16 →
        2 ^ (n - 1) * expState n < backOffMin * 3 ^ (n - 1)
          ∧ backOffMin * 3 ^ (n - 1) < 2 ^ (n - 1) * (expState n + 64))
    ∧ (∀ n, 17 ≤ n → expState n = backOffMax)
    ∧ (∀ n, 1 ≤ n → 0 < linState n ∧ 0 < expState n) := by
  have hlin : ∀ n, 1 ≤ n → linState n = min (n * backOffMin) backOffMax := by
    intro n
    induction n with
    | zero => intro h; exact absurd h (by decide)
    | succ k ih =>
      intro _
      by_cases hk : 1 ≤ k
      · have hke := ih hk
        simp only [linState, hke, linStep_eq, backOffMin, backOffMax]
        omega
      · have hk0 : k = 0 := by omega
        subst hk0
        decide
  refine ⟨hlin, ?_, ?_, ?_, ?_⟩
  · intro n h1 h8
    interval_cases n <;> decide
  · intro n h9 h16
    interval_cases n <;> exact ⟨by decide, by decide⟩
  · intro n h17
    obtain ⟨k, rfl⟩ : ∃ k, n = 17 + k := ⟨n - 17, by omega⟩
    exact expState_from17 k
  · intro n h1
    constructor
    · rw [hlin n h1]
      have : backOffMin ≤ n * backOffMin := Nat.le_mul_of_pos_left _ (by omega)
      simp only [backOffMin, backOffMax] at *
      omega
    · obtain ⟨k, rfl⟩ : ∃ k, n = k + 1 := ⟨n - 1, by omega⟩
      have := expStep_lower (expState k)
      simp only [expState, backOffMin] at *
      omega

/-- Counterexample to claim C8 as frozen: on the 11th exponential wait
the code draws from `[0, expState 11)`, and `expState 11` (scaled by
`2^10 = 1024`) differs from `50ms * 1.5^10` (which is below the 30s cap),
so the bound is not `min(50ms * 1.5^(n-1), 30s)`. -/
theorem backoff_exp_counterexample :
    expState 11 = 2883251952
    ∧ 1024 * expState 11 ≠ backOffMin * 3 ^ 10
    ∧ backOffMin * 3 ^ 10 < 1024 * backOffMax := by
  refine ⟨by decide, by decide, by decide⟩

/-- Witness: the amended C8 theorem applied at n = 3 for both timers. -/
theorem backoff_bounds_witness :
    linState 3 = 150000000 ∧ expState 3 = 112500000 := by
  have h1 := backoff_bounds.1 3 (by decide)
  have h2 := backoff_bounds.2.1 3 (by decide) (by decide)
  constructor
  · rw [h1]; decide
  · norm_num [backOffMin] at h2
    omega

end GMutex

namespace GMutex

/-- One event of the remote-store/network oracle: either `HTTPClient.Do`
returns a non-nil error, or it returns a response. -/
inductive StoreEv where
  | terr (e : GoError)
  | resp (r : Resp)
deriving DecidableEq

/-- The `(status, generation, error)` triple the adapter methods return. -/
structure Triple where
  status : Int
  gen : String
  err : Option GoError
deriving DecidableEq

/-- Outcome of one `createObject` / `extendObject` call (both PUT and
return `(res.StatusCode, res.Header.Get("x-goog-generation"), nil)`, or
`(0, "", err)` on a transport error). -/
def putTriple : StoreEv → Triple
  | .terr e => ⟨0, "", some e⟩
  | .resp r => ⟨r.status, r.gen, none⟩

/-- Outcome of one `deleteObject` call (returns only the status, or
`(0, err)` on a transport error). -/
def deleteTriple : StoreEv → Triple
  | .terr e => ⟨0, "", some e⟩
  | .resp r => ⟨r.status, "", none⟩

/-- Outcome of one `inspectObject` call: on a 200 response that the
oracle judges expired, the status is rewritten to 404 ("if it exists, but
is expired, act as if it didn't"); the `x-goog-generation` header is
returned either way. -/
def inspectTriple : StoreEv → Triple
  | .terr e => ⟨0, "", some e⟩
  | .resp r => ⟨if r.status == 200 && expired r then 404 else r.status, r.gen, none⟩

/-- Consume the next store event; an exhausted oracle behaves as a
non-retriable transport error. -/
def nextEv : List StoreEv → StoreEv × List StoreEv
  | [] => (.terr ⟨false, false⟩, [])
  | ev :: rest => (ev, rest)

/-- Consume the next cancellation flag; an exhausted list means the
context never fires. -/
def nextCancel : List Bool → Bool × List Bool
  | [] => (false, [])
  | c :: rest => (c, rest)

/-- Final outcome of `Unlock`, `Extend` or `UpdateData`: success, an
`errors.New` error with its message, context cancellation during a
backoff wait, a non-retriable transport error, a non-retriable status
(`fmt.Errorf("...: http status %d ...")`), or exhausted fuel. -/
inductive OpOut where
  | ok
  | errMsg (msg : String)
  | cancelled
  | errTransport (e : GoError)
  | errStatus (status : Int)
  | fuelOut
deriving DecidableEq

/-- The retry loop of method `Unlock`: conditional delete at the held
generation; on 200/204 clear the generation and succeed; on 412/404
report a stale lock; retry transients under the linear backoff (a wait
may be cancelled); anything else is fatal. -/
def unlockLoop : Nat → Mutex → List StoreEv → List Bool → Mutex × OpOut
  | 0, m, _, _ => (m, .fuelOut)
  | fuel + 1, m, store, cancels =>
    let t := deleteTriple (nextEv store).1
    if t.status == 200 || t.status == 204 then ({ m with generation := "" }, .ok)
    else if t.status == 412 || t.status == 404 then
      (m, .errMsg "unlock mutex: stale lock")
    else if retriable t.status t.err then
      if (nextCancel cancels).1 then (m, .cancelled)
      else unlockLoop fuel m (nextEv store).2 (nextCancel cancels).2
    else
      match t.err with
      | some e => (m, .errTransport e)
      | none => (m, .errStatus t.status)

/-- The retry loop of method `Extend`: conditional self-compose at the
held generation; on 200 record the new generation and succeed; on 404
report a missing bucket (this test precedes the stale test, whose 404
disjunct is therefore dead code); on 412 report a stale lock; retry
transients under the linear backoff; anything else is fatal. -/
def extendLoop : Nat → Mutex → List StoreEv → List Bool → Mutex × OpOut
  | 0, m, _, _ => (m, .fuelOut)
  | fuel + 1, m, store, cancels =>
    let t := putTriple (nextEv store).1
    if t.status == 200 then ({ m with generation := t.gen }, .ok)
    else if t.status == 404 then (m, .errMsg "mutex: bucket does not exist")
    else if t.status == 412 || t.status == 404 then
      (m, .errMsg "extend mutex: stale lock, abort")
    else if retriable t.status t.err then
      if (nextCancel cancels).1 then (m, .cancelled)
      else extendLoop fuel m (nextEv store).2 (nextCancel cancels).2
    else
      match t.err with
      | some e => (m, .errTransport e)
      | none => (m, .errStatus t.status)

/-- The retry loop of method `UpdateData`: conditional create at the held
generation; same shape as `extendLoop` with the messages of the source
(`"lock mutex: bucket does not exist"`, `"update mutex: stale lock,
abort"`). -/
def updateLoop : Nat → Mutex → List StoreEv → List Bool → Mutex × OpOut
  | 0, m, _, _ => (m, .fuelOut)
  | fuel + 1, m, store, cancels =>
    let t := putTriple (nextEv store).1
    if t.status == 200 then ({ m with generation := t.gen }, .ok)
    else if t.status == 404 then (m, .errMsg "lock mutex: bucket does not exist")
    else if t.status == 412 || t.status == 404 then
      (m, .errMsg "update mutex: stale lock, abort")
    else if retriable t.status t.err then
      if (nextCancel cancels).1 then (m, .cancelled)
      else updateLoop fuel m (nextEv store).2 (nextCancel cancels).2
    else
      match t.err with
      | some e => (m, .errTransport e)
      | none => (m, .errStatus t.status)

/-- Final outcome of `InspectData`: `(true, nil)`, `(false, nil)`,
cancellation, a fatal transport error, a fatal status, or exhausted
fuel. -/
inductive InspOut where
  | locked
  | unlocked
  | cancelled
  | errTransport (e : GoError)
  | errStatus (status : Int)
  | fuelOut
deriving DecidableEq

/-- The retry loop of method `InspectData`: inspect (with the
expired-to-404 rewrite of `inspectObject`); 200 means `(true, nil)`, 404
means `(false, nil)`; retry transients under the exponential backoff;
anything else is fatal.  The handle is threaded through untouched: the
source never assigns to any field of `m` on this path. -/
def inspectDataLoop : Nat → Mutex → List StoreEv → List Bool → Mutex × InspOut
  | 0, m, _, _ => (m, .fuelOut)
  | fuel + 1, m, store, cancels =>
    let t := inspectTriple (nextEv store).1
    if t.status == 200 then (m, .locked)
    else if t.status == 404 then (m, .unlocked)
    else if retriable t.status t.err then
      if (nextCancel cancels).1 then (m, .cancelled)
      else inspectDataLoop fuel m (nextEv store).2 (nextCancel cancels).2
    else
      match t.err with
      | some e => (m, .errTransport e)
      | none => (m, .errStatus t.status)

/-- Result of calling a public method: a Go `panic` with its message, or
a normal run. -/
inductive GoResult (α : Type) where
  | panics (msg : String)
  | runs (a : α)
deriving DecidableEq

/-- Classification of an `io.Reader` payload source, by the cases of
function `rewindable`: the nil interface, `*bytes.Buffer`,
`*bytes.Reader`, `*strings.Reader`, `http.NoBody`, or any other
reader. -/
inductive DataSrc where
  | nilReader
  | bytesBuffer
  | bytesReader
  | stringsReader
  | noBody
  | otherReader
deriving DecidableEq

/-- Function `rewindable`: nil, `*bytes.Buffer`, `*bytes.Reader` and
`*strings.Reader` are rewindable, as is `http.NoBody`; everything else
is not. -/
def rewindable : DataSrc → Bool
  | .nilReader => true
  | .bytesBuffer => true
  | .bytesReader => true
  | .stringsReader => true
  | .noBody => true
  | .otherReader => false

/-- Method `Unlock`: panic on an unheld handle, then run the delete
loop. -/
def Unlock (m : Mutex) (fuel : Nat) (store : List StoreEv) (cancels : List Bool) :
    GoResult (Mutex × OpOut) :=
  if m.generation = "" then .panics "gmutex: unlock of unlocked mutex"
  else .runs (unlockLoop fuel m store cancels)

/-- Method `Extend`: panic on an unheld handle, then run the compose
loop. -/
def Extend (m : Mutex) (fuel : Nat) (store : List StoreEv) (cancels : List Bool) :
    GoResult (Mutex × OpOut) :=
  if m.generation = "" then .panics "gmutex: extend of unlocked mutex"
  else .runs (extendLoop fuel m store cancels)

/-- Method `UpdateData`: panic on an unheld handle or a non-rewindable
payload, then run the create loop. -/
def UpdateData (m : Mutex) (data : DataSrc) (fuel : Nat) (store : List StoreEv)
    (cancels : List Bool) : GoResult (Mutex × OpOut) :=
  if m.generation = "" then .panics "gmutex: update of unlocked mutex"
  else if !rewindable data then .panics "gmutex: data not rewindable"
  else .runs (updateLoop fuel m store cancels)

/-- Method `InspectData`: no precondition, never panics; runs the inspect
loop.  The pair returned carries the (unchanged) handle to state the
frame property. -/
def InspectData (m : Mutex) (fuel : Nat) (store : List StoreEv) (cancels : List Bool) :
    Mutex × InspOut :=
  inspectDataLoop fuel m store cancels

/-- Method `Abandon`: panic on an unheld handle; otherwise return the
generation as the lock id and clear it. -/
def Abandon (m : Mutex) : GoResult (String × Mutex) :=
  if m.generation = "" then .panics "gmutex: abandon of unlocked mutex"
  else .runs (m.generation, { m with generation := "" })

/-- Method `Adopt`: panic on a held handle or an invalid id; otherwise
install the id as the generation and call `Extend` to prove mutual
exclusion. -/
def Adopt (m : Mutex) (id : String) (fuel : Nat) (store : List StoreEv)
    (cancels : List Bool) : GoResult (Mutex × OpOut) :=
  if m.generation ≠ "" then .panics "gmutex: adopt on locked mutex"
  else if id = "" ∨ id = "0" then .panics "gmutex: adopt of invalid lock"
  else Extend { m with generation := id } fuel store cancels

/-- Method `AdoptData`: panic on a held handle or an invalid id;
otherwise install the id as the generation and call `UpdateData` (whose
own rewindability check can also panic). -/
def AdoptData (m : Mutex) (id : String) (data : DataSrc) (fuel : Nat)
    (store : List StoreEv) (cancels : List Bool) : GoResult (Mutex × OpOut) :=
  if m.generation ≠ "" then .panics "gmutex: adopt on locked mutex"
  else if id = "" ∨ id = "0" then .panics "gmutex: adopt of invalid lock"
  else UpdateData { m with generation := id } data fuel store cancels

end GMutex

namespace GMutex

theorem unlockLoop_frame : ∀ fuel m store cancels m2 out,
    unlockLoop fuel m store cancels = (m2, out) →
    (out = OpOut.ok → m2 = { m with generation := "" }) ∧ (out ≠ OpOut.ok → m2 = m) := by
  intro fuel
  induction fuel with
  | zero =>
    intro m store cancels m2 out h
    simp only [unlockLoop] at h
    injection h with h1 h2
    subst h1; subst h2
    exact ⟨(fun hq => nomatch hq), fun _ => rfl⟩
  | succ fuel ih =>
    intro m store cancels m2 out h
    simp only [unlockLoop] at h
    split at h
    · injection h with h1 h2
      subst h1; subst h2
      exact ⟨fun _ => rfl, fun hq => absurd rfl hq⟩
    · split at h
      · injection h with h1 h2
        subst h1; subst h2
        exact ⟨(fun hq => nomatch hq), fun _ => rfl⟩
      · split at h
        · split at h
          · injection h with h1 h2
            subst h1; subst h2
            exact ⟨(fun hq => nomatch hq), fun _ => rfl⟩
          · exact ih m _ _ m2 out h
        · split at h
          · injection h with h1 h2
            subst h1; subst h2
            exact ⟨(fun hq => nomatch hq), fun _ => rfl⟩
          · injection h with h1 h2
            subst h1; subst h2
            exact ⟨(fun hq => nomatch hq), fun _ => rfl⟩

/-- An oracle event that drives the `Unlock` loop into its
retry-with-backoff branch: not 200/204, not 412/404, and classified
transient. -/
def unlockRetriEv (ev : StoreEv) : Bool :=
  !((deleteTriple ev).status == 200 || (deleteTriple ev).status == 204)
    && !((deleteTriple ev).status == 412 || (deleteTriple ev).status == 404)
    && retriable (deleteTriple ev).status (deleteTriple ev).err

theorem unlockLoop_skip : ∀ (pre : List StoreEv) (m : Mutex) rest tailC n,
    (∀ ev ∈ pre, unlockRetriEv ev = true) →
    unlockLoop (pre.length + n) m (pre ++ rest)
        (List.replicate pre.length false ++ tailC)
      = unlockLoop n m rest tailC := by
  intro pre
  induction pre with
  | nil =>
    intro m rest tailC n _
    simp
  | cons ev pre ih =>
    intro m rest tailC n h
    have hev := h ev (List.mem_cons_self ev pre)
    simp only [unlockRetriEv, Bool.and_eq_true, Bool.not_eq_true'] at hev
    obtain ⟨⟨h1, h2⟩, h3⟩ := hev
    have hlen : (ev :: pre).length + n = (pre.length + n) + 1 := by
      simp only [List.length_cons]
      omega
    rw [hlen]
    simp only [List.cons_append, List.length_cons, List.replicate_succ]
    simp only [unlockLoop, nextEv, nextCancel, h1, h2, h3, Bool.false_eq_true,
      if_false, if_true, Bool.true_eq_false]
    exact ih m rest tailC n (fun e he => h e (List.mem_cons_of_mem ev he))

end GMutex

namespace GMutex

/-- Claim C4: on a held handle, if the conditional delete answers 200 or
204 (after any transient prefix) `Unlock` clears the generation and
succeeds; if it answers 412 or 404 `Unlock` reports the stale-lock error
and leaves the handle unchanged; and no outcome other than success clears
the generation. -/
theorem unlock_outcomes :
    ∀ m fuel store cancels, m.generation ≠ "" →
      (∀ m2 out, Unlock m fuel store cancels = .runs (m2, out) →
        (out = OpOut.ok → m2 = { m with generation := "" })
          ∧ (out ≠ OpOut.ok → m2 = m))
      ∧ (∀ (pre : List StoreEv) (r : Resp) rest tailC n,
          (∀ ev ∈ pre, unlockRetriEv ev = true) →
          ((r.status = 200 ∨ r.status = 204) →
            Unlock m (pre.length + (n + 1)) (pre ++ .resp r :: rest)
                (List.replicate pre.length false ++ tailC)
              = .runs ({ m with generation := "" }, OpOut.ok))
          ∧ ((r.status = 412 ∨ r.status = 404) →
            Unlock m (pre.length + (n + 1)) (pre ++ .resp r :: rest)
                (List.replicate pre.length false ++ tailC)
              = .runs (m, OpOut.errMsg "unlock mutex: stale lock"))) := by
  intro m fuel store cancels hm
  constructor
  · intro m2 out h
    rw [Unlock, if_neg hm] at h
    injection h with h
    exact unlockLoop_frame fuel m store cancels m2 out h
  · intro pre r rest tailC n hpre
    constructor
    · intro hr
      rw [Unlock, if_neg hm, unlockLoop_skip pre m _ _ _ hpre]
      rcases hr with hr | hr <;>
        simp [unlockLoop, nextEv, deleteTriple, hr]
    · intro hr
      rw [Unlock, if_neg hm, unlockLoop_skip pre m _ _ _ hpre]
      rcases hr with hr | hr <;>
        simp [unlockLoop, nextEv, deleteTriple, hr]

/-- Witness: the C4 theorem applied to a held handle against an oracle
that answers one retriable 503 and then a 204 delete: the handle is
cleared and `Unlock` succeeds. -/
theorem unlock_outcomes_witness :
    Unlock ⟨"bucket", "object", "5", 10⟩ 2
        [.resp { status := 503, gen := "" }, .resp { status := 204, gen := "" }] [false]
      = .runs (⟨"bucket", "object", "", 10⟩, OpOut.ok) := by
  have h := ((unlock_outcomes ⟨"bucket", "object", "5", 10⟩ 2
      [.resp { status := 503, gen := "" }, .resp { status := 204, gen := "" }] [false]
      (by decide)).2
      [.resp { status := 503, gen := "" }] { status := 204, gen := "" } [] [] 0
      (by decide)).1 (Or.inr rfl)
  exact h

end GMutex

namespace GMutex

theorem extendLoop_outcome : ∀ fuel m store cancels m2 out,
    extendLoop fuel m store cancels = (m2, out) →
    (out ≠ OpOut.ok → m2 = m)
      ∧ (out = OpOut.ok → ∃ k r, store.get? k = some (.resp r) ∧ r.status = 200
          ∧ m2 = { m with generation := r.gen }) := by
  intro fuel
  induction fuel with
  | zero =>
    intro m store cancels m2 out h
    simp only [extendLoop] at h
    injection h with h1 h2
    subst h1; subst h2
    exact ⟨(fun _ => rfl), fun hq => nomatch hq⟩
  | succ fuel ih =>
    intro m store cancels m2 out h
    cases store with
    | nil =>
      simp [extendLoop, nextEv, putTriple, retriable, Prod.mk.injEq] at h
      obtain ⟨rfl, rfl⟩ := h
      exact ⟨(fun _ => rfl), fun hq => nomatch hq⟩
    | cons ev rest =>
      simp only [extendLoop, nextEv] at h
      split at h
      · rename_i hc
        cases ev with
        | terr e => simp [putTriple] at hc
        | resp r =>
          simp only [putTriple] at hc h
          injection h with h1 h2
          subst h1; subst h2
          refine ⟨fun hq => absurd rfl hq, fun _ => ⟨0, r, rfl, ?_, rfl⟩⟩
          simpa using hc
      · split at h
        · injection h with h1 h2
          subst h1; subst h2
          exact ⟨(fun _ => rfl), fun hq => nomatch hq⟩
        · split at h
          · injection h with h1 h2
            subst h1; subst h2
            exact ⟨(fun _ => rfl), fun hq => nomatch hq⟩
          · split at h
            · split at h
              · injection h with h1 h2
                subst h1; subst h2
                exact ⟨(fun _ => rfl), fun hq => nomatch hq⟩
              · obtain ⟨hframe, hok⟩ := ih m rest _ m2 out h
                refine ⟨hframe, fun ho => ?_⟩
                obtain ⟨k, r, hk, hs, hm2⟩ := hok ho
                exact ⟨k + 1, r, hk, hs, hm2⟩
            · split at h
              · injection h with h1 h2
                subst h1; subst h2
                exact ⟨(fun _ => rfl), fun hq => nomatch hq⟩
              · injection h with h1 h2
                subst h1; subst h2
                exact ⟨(fun _ => rfl), fun hq => nomatch hq⟩

theorem updateLoop_outcome : ∀ fuel m store cancels m2 out,
    updateLoop fuel m store cancels = (m2, out) →
    (out ≠ OpOut.ok → m2 = m)
      ∧ (out = OpOut.ok → ∃ k r, store.get? k = some (.resp r) ∧ r.status = 200
          ∧ m2 = { m with generation := r.gen }) := by
  intro fuel
  induction fuel with
  | zero =>
    intro m store cancels m2 out h
    simp only [updateLoop] at h
    injection h with h1 h2
    subst h1; subst h2
    exact ⟨(fun _ => rfl), fun hq => nomatch hq⟩
  | succ fuel ih =>
    intro m store cancels m2 out h
    cases store with
    | nil =>
      simp [updateLoop, nextEv, putTriple, retriable, Prod.mk.injEq] at h
      obtain ⟨rfl, rfl⟩ := h
      exact ⟨(fun _ => rfl), fun hq => nomatch hq⟩
    | cons ev rest =>
      simp only [updateLoop, nextEv] at h
      split at h
      · rename_i hc
        cases ev with
        | terr e => simp [putTriple] at hc
        | resp r =>
          simp only [putTriple] at hc h
          injection h with h1 h2
          subst h1; subst h2
          refine ⟨fun hq => absurd rfl hq, fun _ => ⟨0, r, rfl, ?_, rfl⟩⟩
          simpa using hc
      · split at h
        · injection h with h1 h2
          subst h1; subst h2
          exact ⟨(fun _ => rfl), fun hq => nomatch hq⟩
        · split at h
          · injection h with h1 h2
            subst h1; subst h2
            exact ⟨(fun _ => rfl), fun hq => nomatch hq⟩
          · split at h
            · split at h
              · injection h with h1 h2
                subst h1; subst h2
                exact ⟨(fun _ => rfl), fun hq => nomatch hq⟩
              · obtain ⟨hframe, hok⟩ := ih m rest _ m2 out h
                refine ⟨hframe, fun ho => ?_⟩
                obtain ⟨k, r, hk, hs, hm2⟩ := hok ho
                exact ⟨k + 1, r, hk, hs, hm2⟩
            · split at h
              · injection h with h1 h2
                subst h1; subst h2
                exact ⟨(fun _ => rfl), fun hq => nomatch hq⟩
              · injection h with h1 h2
                subst h1; subst h2
                exact ⟨(fun _ => rfl), fun hq => nomatch hq⟩

end GMutex

namespace GMutex

/-- An oracle event that drives the `Extend` / `UpdateData` loops into
their retry-with-backoff branch: not 200, not 404, not 412, and
classified transient. -/
def putRetriEv (ev : StoreEv) : Bool :=
  !((putTriple ev).status == 200) && !((putTriple ev).status == 404)
    && !((putTriple ev).status == 412 || (putTriple ev).status == 404)
    && retriable (putTriple ev).status (putTriple ev).err

theorem extendLoop_skip : ∀ (pre : List StoreEv) (m : Mutex) rest tailC n,
    (∀ ev ∈ pre, putRetriEv ev = true) →
    extendLoop (pre.length + n) m (pre ++ rest)
        (List.replicate pre.length false ++ tailC)
      = extendLoop n m rest tailC := by
  intro pre
  induction pre with
  | nil =>
    intro m rest tailC n _
    simp
  | cons ev pre ih =>
    intro m rest tailC n h
    have hev := h ev (List.mem_cons_self ev pre)
    simp only [putRetriEv, Bool.and_eq_true, Bool.not_eq_true'] at hev
    obtain ⟨⟨⟨h1, h2⟩, h3⟩, h4⟩ := hev
    have h31 : ((putTriple ev).status == 412) = false := by
      rcases Bool.or_eq_false_iff.mp h3 with ⟨h31, -⟩
      exact h31
    have hlen : (ev :: pre).length + n = (pre.length + n) + 1 := by
      simp only [List.length_cons]
      omega
    rw [hlen]
    simp only [List.cons_append, List.length_cons, List.replicate_succ]
    simp only [extendLoop, nextEv, nextCancel, h1, h2, h3, h31, h4, Bool.or_false,
      Bool.false_eq_true, if_false, if_true, Bool.true_eq_false]
    exact ih m rest tailC n (fun e he => h e (List.mem_cons_of_mem ev he))

theorem updateLoop_skip : ∀ (pre : List StoreEv) (m : Mutex) rest tailC n,
    (∀ ev ∈ pre, putRetriEv ev = true) →
    updateLoop (pre.length + n) m (pre ++ rest)
        (List.replicate pre.length false ++ tailC)
      = updateLoop n m rest tailC := by
  intro pre
  induction pre with
  | nil =>
    intro m rest tailC n _
    simp
  | cons ev pre ih =>
    intro m rest tailC n h
    have hev := h ev (List.mem_cons_self ev pre)
    simp only [putRetriEv, Bool.and_eq_true, Bool.not_eq_true'] at hev
    obtain ⟨⟨⟨h1, h2⟩, h3⟩, h4⟩ := hev
    have h31 : ((putTriple ev).status == 412) = false := by
      rcases Bool.or_eq_false_iff.mp h3 with ⟨h31, -⟩
      exact h31
    have hlen : (ev :: pre).length + n = (pre.length + n) + 1 := by
      simp only [List.length_cons]
      omega
    rw [hlen]
    simp only [List.cons_append, List.length_cons, List.replicate_succ]
    simp only [updateLoop, nextEv, nextCancel, h1, h2, h3, h31, h4, Bool.or_false,
      Bool.false_eq_true, if_false, if_true, Bool.true_eq_false]
    exact ih m rest tailC n (fun e he => h e (List.mem_cons_of_mem ev he))

/-- Claim C3 (amended): for `Extend` and `UpdateData` on a held handle,
a 412 from the conditional write (after any transient prefix) yields the
stale-lock error with the handle left unchanged, a 404 yields the
"bucket does not exist" error (the 404 test precedes the stale test in
the source, whose own 404 disjunct is dead code) again with the handle
unchanged — indeed every outcome other than success leaves the handle
unchanged — and on 200 the handle's generation is replaced with the
`x-goog-generation` returned by the store. -/
theorem extend_update_outcomes :
    ∀ m data fuel store cancels, m.generation ≠ "" →
      (∀ m2 out, Extend m fuel store cancels = .runs (m2, out) →
        (out ≠ OpOut.ok → m2 = m)
          ∧ (out = OpOut.ok → ∃ k r, store.get? k = some (.resp r) ∧ r.status = 200
              ∧ m2 = { m with generation := r.gen }))
      ∧ (rewindable data = true →
          ∀ m2 out, UpdateData m data fuel store cancels = .runs (m2, out) →
            (out ≠ OpOut.ok → m2 = m)
              ∧ (out = OpOut.ok → ∃ k r, store.get? k = some (.resp r) ∧ r.status = 200
                  ∧ m2 = { m with generation := r.gen }))
      ∧ (∀ (pre : List StoreEv) (r : Resp) rest tailC n,
          (∀ ev ∈ pre, putRetriEv ev = true) → r.status = 412 →
          Extend m (pre.length + (n + 1)) (pre ++ .resp r :: rest)
              (List.replicate pre.length false ++ tailC)
            = .runs (m, OpOut.errMsg "extend mutex: stale lock, abort")
          ∧ (rewindable data = true →
              UpdateData m data (pre.length + (n + 1)) (pre ++ .resp r :: rest)
                  (List.replicate pre.length false ++ tailC)
                = .runs (m, OpOut.errMsg "update mutex: stale lock, abort")))
      ∧ (∀ (pre : List StoreEv) (r : Resp) rest tailC n,
          (∀ ev ∈ pre, putRetriEv ev = true) → r.status = 404 →
          Extend m (pre.length + (n + 1)) (pre ++ .resp r :: rest)
              (List.replicate pre.length false ++ tailC)
            = .runs (m, OpOut.errMsg "mutex: bucket does not exist")
          ∧ (rewindable data = true →
              UpdateData m data (pre.length + (n + 1)) (pre ++ .resp r :: rest)
                  (List.replicate pre.length false ++ tailC)
                = .runs (m, OpOut.errMsg "lock mutex: bucket does not exist"))) := by
  intro m data fuel store cancels hm
  refine ⟨?_, ?_, ?_, ?_⟩
  · intro m2 out h
    rw [Extend, if_neg hm] at h
    injection h with h
    exact extendLoop_outcome fuel m store cancels m2 out h
  · intro hd m2 out h
    rw [UpdateData, if_neg hm, if_neg (by simp [hd])] at h
    injection h with h
    exact updateLoop_outcome fuel m store cancels m2 out h
  · intro pre r rest tailC n hpre hr
    constructor
    · rw [Extend, if_neg hm, extendLoop_skip pre m _ _ _ hpre]
      simp [extendLoop, nextEv, putTriple, hr]
    · intro hd
      rw [UpdateData, if_neg hm, if_neg (by simp [hd]),
        updateLoop_skip pre m _ _ _ hpre]
      simp [updateLoop, nextEv, putTriple, hr]
  · intro pre r rest tailC n hpre hr
    constructor
    · rw [Extend, if_neg hm, extendLoop_skip pre m _ _ _ hpre]
      simp [extendLoop, nextEv, putTriple, hr]
    · intro hd
      rw [UpdateData, if_neg hm, if_neg (by simp [hd]),
        updateLoop_skip pre m _ _ _ hpre]
      simp [updateLoop, nextEv, putTriple, hr]

/-- Counterexample to claim C3 as frozen: on a held handle a 404 from the
conditional write makes `Extend` return the "bucket does not exist"
error, not the stale-lock error the claim requires. -/
theorem extend_404_counterexample :
    Extend ⟨"bucket", "object", "5", 10⟩ 1 [.resp { status := 404, gen := "" }] []
      = .runs (⟨"bucket", "object", "5", 10⟩, OpOut.errMsg "mutex: bucket does not exist")
    ∧ OpOut.errMsg "mutex: bucket does not exist"
        ≠ OpOut.errMsg "extend mutex: stale lock, abort" := by
  exact ⟨by decide, by decide⟩

/-- Witness: the amended C3 theorem applied to a held handle whose
`Extend` receives a 200 with generation "7": the handle's generation is
replaced by the store's. -/
theorem extend_update_outcomes_witness :
    ∃ k r, [StoreEv.resp { status := 200, gen := "7" }].get? k = some (.resp r)
      ∧ r.status = 200
      ∧ (⟨"bucket", "object", "7", 10⟩ : Mutex)
          = { (⟨"bucket", "object", "5", 10⟩ : Mutex) with generation := r.gen } :=
  ((extend_update_outcomes ⟨"bucket", "object", "5", 10⟩ .nilReader 1
      [.resp { status := 200, gen := "7" }] [] (by decide)).1
      ⟨"bucket", "object", "7", 10⟩ OpOut.ok (by decide)).2 rfl

end GMutex

namespace GMutex

theorem inspectDataLoop_frame : ∀ fuel m store cancels m2 out,
    inspectDataLoop fuel m store cancels = (m2, out) → m2 = m := by
  intro fuel
  induction fuel with
  | zero =>
    intro m store cancels m2 out h
    simp only [inspectDataLoop] at h
    injection h with h1 h2
    subst h1
    rfl
  | succ fuel ih =>
    intro m store cancels m2 out h
    simp only [inspectDataLoop] at h
    split at h
    · injection h with h1 h2; subst h1; rfl
    · split at h
      · injection h with h1 h2; subst h1; rfl
      · split at h
        · split at h
          · injection h with h1 h2; subst h1; rfl
          · exact ih m _ _ m2 out h
        · split at h
          · injection h with h1 h2; subst h1; rfl
          · injection h with h1 h2; subst h1; rfl

/-- An oracle event that drives the `InspectData` loop into its
retry-with-backoff branch: effective status (after the expired-to-404
rewrite) is neither 200 nor 404, and the outcome is classified
transient. -/
def inspectRetriEv (ev : StoreEv) : Bool :=
  !((inspectTriple ev).status == 200) && !((inspectTriple ev).status == 404)
    && retriable (inspectTriple ev).status (inspectTriple ev).err

theorem inspectDataLoop_skip : ∀ (pre : List StoreEv) (m : Mutex) rest tailC n,
    (∀ ev ∈ pre, inspectRetriEv ev = true) →
    inspectDataLoop (pre.length + n) m (pre ++ rest)
        (List.replicate pre.length false ++ tailC)
      = inspectDataLoop n m rest tailC := by
  intro pre
  induction pre with
  | nil =>
    intro m rest tailC n _
    simp
  | cons ev pre ih =>
    intro m rest tailC n h
    have hev := h ev (List.mem_cons_self ev pre)
    simp only [inspectRetriEv, Bool.and_eq_true, Bool.not_eq_true'] at hev
    obtain ⟨⟨h1, h2⟩, h3⟩ := hev
    have hlen : (ev :: pre).length + n = (pre.length + n) + 1 := by
      simp only [List.length_cons]
      omega
    rw [hlen]
    simp only [List.cons_append, List.length_cons, List.replicate_succ]
    simp only [inspectDataLoop, nextEv, nextCancel, h1, h2, h3, Bool.false_eq_true,
      if_false, if_true, Bool.true_eq_false]
    exact ih m rest tailC n (fun e he => h e (List.mem_cons_of_mem ev he))

/-- Claim C7: `InspectData` returns `(true, nil)` when the object exists
and is not expired per the oracle, `(false, nil)` when it is absent or
exists but is expired (the inspect path rewrites an expired 200 to 404),
and in every case — success, error, or cancellation — every field of the
handle is left unchanged. -/
theorem inspectData_outcomes :
    ∀ m fuel store cancels,
      (∀ m2 out, InspectData m fuel store cancels = (m2, out) → m2 = m)
      ∧ (∀ (pre : List StoreEv) (r : Resp) rest tailC n,
          (∀ ev ∈ pre, inspectRetriEv ev = true) →
          ((r.status = 200 ∧ expired r = false) →
            InspectData m (pre.length + (n + 1)) (pre ++ .resp r :: rest)
                (List.replicate pre.length false ++ tailC)
              = (m, InspOut.locked))
          ∧ ((r.status = 404 ∨ (r.status = 200 ∧ expired r = true)) →
            InspectData m (pre.length + (n + 1)) (pre ++ .resp r :: rest)
                (List.replicate pre.length false ++ tailC)
              = (m, InspOut.unlocked))) := by
  intro m fuel store cancels
  constructor
  · intro m2 out h
    exact inspectDataLoop_frame fuel m store cancels m2 out h
  · intro pre r rest tailC n hpre
    constructor
    · intro hr
      rw [InspectData, inspectDataLoop_skip pre m _ _ _ hpre]
      simp [inspectDataLoop, nextEv, inspectTriple, hr.1, hr.2]
    · intro hr
      rw [InspectData, inspectDataLoop_skip pre m _ _ _ hpre]
      rcases hr with hr | hr
      · simp [inspectDataLoop, nextEv, inspectTriple, hr]
      · simp [inspectDataLoop, nextEv, inspectTriple, hr.1, hr.2]

/-- Witness: the C7 theorem applied to an oracle answering a 200 response
that the oracle judges expired (modified 0, now 100, ttl 10): the inspect
path rewrites it to 404 and reports unlocked, leaving the handle
unchanged. -/
theorem inspectData_outcomes_witness :
    InspectData ⟨"bucket", "object", "", 0⟩ 1 [.resp respDemo] []
      = (⟨"bucket", "object", "", 0⟩, InspOut.unlocked) :=
  ((inspectData_outcomes ⟨"bucket", "object", "", 0⟩ 1 [.resp respDemo] []).2
      [] respDemo [] [] 0 (by simp)).2
    (Or.inr ⟨rfl, by decide⟩)

end GMutex

namespace GMutex

/-- One observable step of the acquisition loop, for stating trace
properties; traces are recorded newest-first.  A `create` entry records
the `x-goog-if-generation-match` header sent and the status and
`x-goog-generation` received; an `inspectEnt` entry records the status
after the expired-to-404 rewrite and the generation received; a
`waitEnt` entry records one backoff wait. -/
inductive TraceEnt where
  | create (hdr : String) (status : Int) (gen : String)
  | inspectEnt (status : Int) (gen : String)
  | waitEnt (cancelled : Bool)
deriving DecidableEq

/-- World state threaded through the acquisition loop: the trace so far
(newest first) and the unconsumed oracle inputs. -/
structure W where
  trace : List TraceEnt
  store : List StoreEv
  cancels : List Bool
deriving DecidableEq

/-- The defaulting in `createObject`:
`if generation == "" { generation = "0" }`. -/
def hdrGen (generation : String) : String :=
  if generation = "" then "0" else generation

/-- One `createObject` call: consume a store event, record the request
header and the result. -/
def doCreate (generation : String) (w : W) : Triple × W :=
  (putTriple (nextEv w.store).1,
   ⟨.create (hdrGen generation) (putTriple (nextEv w.store).1).status
       (putTriple (nextEv w.store).1).gen :: w.trace,
    (nextEv w.store).2, w.cancels⟩)

/-- One `inspectObject` call: consume a store event, record the rewritten
status and the generation. -/
def doInspect (w : W) : Triple × W :=
  (inspectTriple (nextEv w.store).1,
   ⟨.inspectEnt (inspectTriple (nextEv w.store).1).status
       (inspectTriple (nextEv w.store).1).gen :: w.trace,
    (nextEv w.store).2, w.cancels⟩)

/-- One `backoff.wait` call: consume a cancellation flag and record it. -/
def doWait (w : W) : Bool × W :=
  ((nextCancel w.cancels).1,
   ⟨.waitEnt (nextCancel w.cancels).1 :: w.trace, w.store,
    (nextCancel w.cancels).2⟩)

/-- Exit of the inner inspect loop of `LockData`: the triple that made
the `for` condition false, or a cancelled wait, or exhausted fuel. -/
inductive InspectExit where
  | exit (t : Triple)
  | cancelled
  | fuelOut
deriving DecidableEq

/-- The inner loop of `LockData`:
`for status == 200 || retriable(status, err) { wait; inspect }`. -/
def inspectLoop : Nat → Triple → W → W × InspectExit
  | 0, _, w => (w, .fuelOut)
  | fuel + 1, t, w =>
    if t.status == 200 || retriable t.status t.err then
      let c := doWait w
      if c.1 then (c.2, .cancelled)
      else
        let p := doInspect c.2
        inspectLoop fuel p.1 p.2
    else (w, .exit t)

/-- Final outcome of the acquisition loop. -/
inductive LockOut where
  | acquired (generation : String)
  | errBucket
  | cancelled
  | errTransport (e : GoError)
  | errStatus (status : Int)
  | fuelOut
deriving DecidableEq

/-- The outer loop of `LockData`, parameterised by the expected
generation (initially `""`): conditional create; 200 acquires, 404 means
the bucket does not exist; on 412 inspect once, then run the inner
inspect loop; if it exits with 404 restart with the generation the
server just reported; otherwise fail. -/
def lockLoop : Nat → String → W → W × LockOut
  | 0, _, w => (w, .fuelOut)
  | fuel + 1, generation, w =>
    let p := doCreate generation w
    if p.1.status == 200 then (p.2, .acquired p.1.gen)
    else if p.1.status == 404 then (p.2, .errBucket)
    else
      let q := if p.1.status == 412 then doInspect p.2 else p
      match inspectLoop (fuel + 1) q.1 q.2 with
      | (w2, .cancelled) => (w2, .cancelled)
      | (w2, .fuelOut) => (w2, .fuelOut)
      | (w2, .exit t) =>
        if t.status == 404 then lockLoop fuel t.gen w2
        else
          match t.err with
          | some e => (w2, .errTransport e)
          | none => (w2, .errStatus t.status)

/-- On acquisition (`m.gen = gen; return nil`) the handle records the
returned generation; every other outcome leaves the handle unchanged. -/
def lockFinish (m : Mutex) (p : W × LockOut) : Mutex × W × LockOut :=
  match p with
  | (w, .acquired g) => ({ m with generation := g }, w, .acquired g)
  | (w, out) => (m, w, out)

/-- Method `LockData`: panic on a held handle or a non-rewindable
payload; run the acquisition loop from expected generation `""`; on
acquisition install the returned generation. -/
def LockData (m : Mutex) (data : DataSrc) (fuel : Nat) (store : List StoreEv)
    (cancels : List Bool) : GoResult (Mutex × W × LockOut) :=
  if m.generation ≠ "" then .panics "gmutex: lock of locked mutex"
  else if !rewindable data then .panics "gmutex: data not rewindable"
  else .runs (lockFinish m (lockLoop fuel "" ⟨[], store, cancels⟩))

/-- Method `Lock`: `LockData` with a nil payload. -/
def Lock (m : Mutex) (fuel : Nat) (store : List StoreEv) (cancels : List Bool) :
    GoResult (Mutex × W × LockOut) :=
  LockData m .nilReader fuel store cancels

/-- Adjacency requirement of claim C2 between consecutive trace entries
(first argument is the newer entry): a conditional create immediately
following an inspect that reported status 404 with generation `g` must
send header `hdrGen g`.  All other adjacencies are unconstrained. -/
def okPair : TraceEnt → TraceEnt → Bool
  | .create h _ _, .inspectEnt s g => if s == 404 then h == hdrGen g else true
  | _, _ => true

/-- A trace (newest first) is adjacency-correct when every consecutive
pair satisfies `okPair`. -/
def adjOK : List TraceEnt → Bool
  | [] => true
  | [_] => true
  | a :: b :: rest => okPair a b && adjOK (b :: rest)

/-- Trace of a `LockData` run (a panic produces no requests). -/
def lockTraceOf : GoResult (Mutex × W × LockOut) → List TraceEnt
  | .panics _ => []
  | .runs a => a.2.1.trace

theorem adjOK_cons (e : TraceEnt) (tr : List TraceEnt) (h : adjOK tr = true)
    (hh : ∀ b, tr.head? = some b → okPair e b = true) : adjOK (e :: tr) = true := by
  cases tr with
  | nil => rfl
  | cons b rest =>
    simp only [adjOK, Bool.and_eq_true]
    exact ⟨hh b rfl, h⟩

end GMutex

namespace GMutex

theorem inspectLoop_adj : ∀ fuel t w,
    adjOK w.trace = true →
    (t.status = 404 → w.trace.head? = some (.inspectEnt 404 t.gen)) →
    adjOK (inspectLoop fuel t w).1.trace = true
      ∧ (∀ t2, (inspectLoop fuel t w).2 = .exit t2 → t2.status = 404 →
          (inspectLoop fuel t w).1.trace.head? = some (.inspectEnt 404 t2.gen)) := by
  intro fuel
  induction fuel with
  | zero =>
    intro t w ha hh
    simp only [inspectLoop]
    exact ⟨ha, fun t2 he => nomatch he⟩
  | succ fuel ih =>
    intro t w ha hh
    simp only [inspectLoop]
    split
    · split
      · refine ⟨?_, fun t2 he => nomatch he⟩
        apply adjOK_cons _ _ ha
        intro b _
        cases b <;> rfl
      · apply ih
        · apply adjOK_cons
          · apply adjOK_cons _ _ ha
            intro b _
            cases b <;> rfl
          · intro b _
            cases b <;> rfl
        · intro h404
          simp only [doInspect, doWait] at h404
          simp only [doInspect, doWait, List.head?]
          rw [h404]
    · refine ⟨ha, fun t2 he h404 => ?_⟩
      injection he with he
      subst he
      exact hh h404

end GMutex

namespace GMutex

theorem lockLoop_adj : ∀ fuel generation w,
    adjOK w.trace = true →
    (∀ g, w.trace.head? = some (.inspectEnt 404 g) → generation = g) →
    adjOK (lockLoop fuel generation w).1.trace = true := by
  intro fuel
  induction fuel with
  | zero =>
    intro generation w ha _
    simpa only [lockLoop] using ha
  | succ fuel ih =>
    intro generation w ha hh
    have hpa : adjOK (doCreate generation w).2.trace = true := by
      simp only [doCreate]
      apply adjOK_cons _ _ ha
      intro b hb
      cases b with
      | create h s g => rfl
      | waitEnt c => rfl
      | inspectEnt s g =>
        simp only [okPair]
        split
        · rename_i hs
          have hs2 : s = 404 := by simpa using hs
          subst hs2
          have hgen := hh g hb
          subst hgen
          simp
        · rfl
    simp only [lockLoop]
    split
    · exact hpa
    · split
      · exact hpa
      · rename_i hs200 hs404
        set p := doCreate generation w with hpdef
        set q := (if p.1.status == 412 then doInspect p.2 else p) with hqdef
        have hq : adjOK q.2.trace = true
            ∧ (q.1.status = 404 →
                q.2.trace.head? = some (.inspectEnt 404 q.1.gen)) := by
          rw [hqdef]
          split
          · constructor
            · simp only [doInspect]
              apply adjOK_cons _ _ hpa
              intro b _
              cases b <;> rfl
            · intro h404
              simp only [doInspect] at h404 ⊢
              simp only [List.head?]
              rw [h404]
          · refine ⟨hpa, fun h404 => absurd ?_ hs404⟩
            simp [h404]
        obtain ⟨hqa, hqh⟩ := hq
        obtain ⟨hia, hih⟩ := inspectLoop_adj (fuel + 1) q.1 q.2 hqa hqh
        rcases hr : inspectLoop (fuel + 1) q.1 q.2 with ⟨w2, ex⟩
        rw [hr] at hia hih
        split
        · rename_i w3 heq
          injection heq with he1 he2
          subst he1
          simpa using hia
        · rename_i w3 heq
          injection heq with he1 he2
          subst he1
          simpa using hia
        · rename_i w3 t heq
          injection heq with he1 he2
          subst he1
          subst he2
          split
          · rename_i ht404
            apply ih t.gen w2
            · simpa using hia
            · intro g hg
              have hth : t.status = 404 := by simpa using ht404
              have hhead := hih t rfl hth
              simp only at hhead
              rw [hg] at hhead
              injection hhead with h4
              injection h4 with h5 h6
              exact h6.symm
          · split
            · simpa using hia
            · simpa using hia

end GMutex

namespace GMutex

theorem lockFinish_snd (m : Mutex) (p : W × LockOut) : (lockFinish m p).2 = p := by
  rcases p with ⟨w, out⟩
  cases out <;> rfl

/-- Claim C2: in every `LockData` run, whenever a conditional create
immediately follows an inspect that exited with status 404 (object
actually absent, or expired as judged by the oracle) reporting
generation `g`, that create sends `x-goog-if-generation-match` header
`hdrGen g`; and `hdrGen "" = "0"`: an empty reported generation is
mapped to the sentinel "0" by `createObject`. -/
theorem lockData_next_generation :
    ∀ m data fuel store cancels,
      adjOK (lockTraceOf (LockData m data fuel store cancels)) = true
      ∧ hdrGen "" = "0" := by
  intro m data fuel store cancels
  refine ⟨?_, by decide⟩
  unfold LockData
  split
  · rfl
  · split
    · rfl
    · have h := lockLoop_adj fuel "" ⟨[], store, cancels⟩ rfl (fun g hg => nomatch hg)
      simp only [lockTraceOf, lockFinish_snd]
      exact h

set_option maxRecDepth 4096 in
/-- Concrete demonstration that the adjacency constraint of claim C2 is
exercised: a create refused with 412, an inspect finding an expired 200
with generation "7" (rewritten to 404), then a create that sends header
"7" and acquires. -/
theorem lockData_trace_demo :
    lockTraceOf (LockData mDemo .nilReader 3
        [.resp { status := 412, gen := "3" },
         .resp { status := 200, gen := "7", date := some 100,
                 lastModified := some 0, ttlMeta := some 10 },
         .resp { status := 200, gen := "8" }] [])
      = [.create "7" 200 "8", .inspectEnt 404 "7", .create "0" 412 "3"] := by
  decide

end GMutex

namespace GMutex

/-- Final outcome of the `TryLockData` loop. -/
inductive TryOut where
  | acquired (generation : String)
  | held
  | errBucket
  | cancelled
  | errTransport (e : GoError)
  | errStatus (status : Int)
  | fuelOut
deriving DecidableEq

/-- The loop of `TryLockData`: inspect first; a 200 means the lock is in
use, `(false, nil)`; on 404 attempt the conditional create at the
generation just observed (200 acquires, 404 means the bucket does not
exist, 412 re-enters the loop immediately); transient outcomes back off
and retry; anything else is fatal. -/
def tryLockLoop : Nat → W → W × TryOut
  | 0, w => (w, .fuelOut)
  | fuel + 1, w =>
    let p := doInspect w
    if p.1.status == 200 then (p.2, .held)
    else if p.1.status == 404 then
      let c := doCreate p.1.gen p.2
      if c.1.status == 200 then (c.2, .acquired c.1.gen)
      else if c.1.status == 404 then (c.2, .errBucket)
      else if c.1.status == 412 then tryLockLoop fuel c.2
      else if retriable c.1.status c.1.err then
        let cw := doWait c.2
        if cw.1 then (cw.2, .cancelled) else tryLockLoop fuel cw.2
      else
        match c.1.err with
        | some e => (c.2, .errTransport e)
        | none => (c.2, .errStatus c.1.status)
    else if retriable p.1.status p.1.err then
      let pw := doWait p.2
      if pw.1 then (pw.2, .cancelled) else tryLockLoop fuel pw.2
    else
      match p.1.err with
      | some e => (p.2, .errTransport e)
      | none => (p.2, .errStatus p.1.status)

/-- On acquisition the handle records the returned generation; every
other outcome leaves it unchanged. -/
def tryFinish (m : Mutex) (p : W × TryOut) : Mutex × W × TryOut :=
  match p with
  | (w, .acquired g) => ({ m with generation := g }, w, .acquired g)
  | (w, out) => (m, w, out)

/-- Method `TryLockData`: panic on a held handle or a non-rewindable
payload, then run the try-lock loop. -/
def TryLockData (m : Mutex) (data : DataSrc) (fuel : Nat) (store : List StoreEv)
    (cancels : List Bool) : GoResult (Mutex × W × TryOut) :=
  if m.generation ≠ "" then .panics "gmutex: lock of locked mutex"
  else if !rewindable data then .panics "gmutex: data not rewindable"
  else .runs (tryFinish m (tryLockLoop fuel ⟨[], store, cancels⟩))

/-- Method `TryLock`: `TryLockData` with a nil payload. -/
def TryLock (m : Mutex) (fuel : Nat) (store : List StoreEv) (cancels : List Bool) :
    GoResult (Mutex × W × TryOut) :=
  TryLockData m .nilReader fuel store cancels

/-- Shared shape of the JSON wrappers in json.go: `json.Marshal` runs
first, and a marshal failure is returned as an error (`runs none`) before
any precondition check; on success the underlying Data method runs on an
in-memory reader and may panic. -/
def marshalThen {α : Type} (marshalOk : Bool) (k : GoResult α) : GoResult (Option α) :=
  if marshalOk then
    match k with
    | .panics s => .panics s
    | .runs a => .runs (some a)
  else .runs none

/-- Method `LockJSON`: marshal, then `LockData` on a `bytes.Reader`. -/
def LockJSON (m : Mutex) (marshalOk : Bool) (fuel : Nat) (store : List StoreEv)
    (cancels : List Bool) : GoResult (Option (Mutex × W × LockOut)) :=
  marshalThen marshalOk (LockData m .bytesReader fuel store cancels)

/-- Method `TryLockJSON`: marshal, then `TryLockData` on a
`bytes.Buffer` (pointer argument) or a `bytes.Reader` (otherwise). -/
def TryLockJSON (m : Mutex) (marshalOk isPtr : Bool) (fuel : Nat)
    (store : List StoreEv) (cancels : List Bool) :
    GoResult (Option (Mutex × W × TryOut)) :=
  marshalThen marshalOk
    (TryLockData m (if isPtr then .bytesBuffer else .bytesReader) fuel store cancels)

/-- Method `UpdateJSON`: marshal, then `UpdateData` on a
`bytes.Reader`. -/
def UpdateJSON (m : Mutex) (marshalOk : Bool) (fuel : Nat) (store : List StoreEv)
    (cancels : List Bool) : GoResult (Option (Mutex × OpOut)) :=
  marshalThen marshalOk (UpdateData m .bytesReader fuel store cancels)

/-- Method `AdoptJSON`: marshal, then `AdoptData` on a `bytes.Reader`. -/
def AdoptJSON (m : Mutex) (id : String) (marshalOk : Bool) (fuel : Nat)
    (store : List StoreEv) (cancels : List Bool) : GoResult (Option (Mutex × OpOut)) :=
  marshalThen marshalOk (AdoptData m id .bytesReader fuel store cancels)

/-- Whether a call panics. -/
def isPanic {α : Type} : GoResult α → Bool
  | .panics _ => true
  | .runs _ => false

theorem isPanic_marshalThen {α : Type} (marshalOk : Bool) (k : GoResult α) :
    isPanic (marshalThen marshalOk k) = (marshalOk && isPanic k) := by
  cases marshalOk with
  | false => rfl
  | true =>
    cases k with
    | panics s => rfl
    | runs a => rfl

end GMutex

namespace GMutex

/-- Claim C9 (amended): on every input, `Lock`/`TryLock` and their Data
variants panic exactly when the handle is held or (Data variants) the
payload is not rewindable; `Unlock`, `Extend`, `UpdateData` and `Abandon`
panic exactly when the handle is unheld (plus, for `UpdateData`, a
non-rewindable payload); `Adopt` panics exactly when the handle is held
or the id is `""` or `"0"`; `AdoptData` additionally panics, through the
`UpdateData` it calls, on a non-rewindable payload; the JSON variants
marshal first and return a marshal failure as an error, so they panic
exactly when the marshal succeeds and the wrapped method's condition
holds (their payloads are always rewindable in-memory readers); no other
condition panics — every remote outcome is a returned value. -/
theorem panic_conditions :
    ∀ (m : Mutex) (data : DataSrc) (id : String) (fuel : Nat) (store : List StoreEv)
      (cancels : List Bool) (marshalOk isPtr : Bool),
      isPanic (LockData m data fuel store cancels)
          = (!(m.generation == "") || !rewindable data)
      ∧ isPanic (Lock m fuel store cancels) = !(m.generation == "")
      ∧ isPanic (TryLockData m data fuel store cancels)
          = (!(m.generation == "") || !rewindable data)
      ∧ isPanic (TryLock m fuel store cancels) = !(m.generation == "")
      ∧ isPanic (Unlock m fuel store cancels) = (m.generation == "")
      ∧ isPanic (Extend m fuel store cancels) = (m.generation == "")
      ∧ isPanic (UpdateData m data fuel store cancels)
          = ((m.generation == "") || !rewindable data)
      ∧ isPanic (Abandon m) = (m.generation == "")
      ∧ isPanic (Adopt m id fuel store cancels)
          = (!(m.generation == "") || id == "" || id == "0")
      ∧ isPanic (AdoptData m id data fuel store cancels)
          = (!(m.generation == "") || id == "" || id == "0" || !rewindable data)
      ∧ isPanic (LockJSON m marshalOk fuel store cancels)
          = (marshalOk && !(m.generation == ""))
      ∧ isPanic (TryLockJSON m marshalOk isPtr fuel store cancels)
          = (marshalOk && !(m.generation == ""))
      ∧ isPanic (UpdateJSON m marshalOk fuel store cancels)
          = (marshalOk && (m.generation == ""))
      ∧ isPanic (AdoptJSON m id marshalOk fuel store cancels)
          = (marshalOk && (!(m.generation == "") || id == "" || id == "0")) := by
  intro m data id fuel store cancels marshalOk isPtr
  have hLD : ∀ (mm : Mutex) (d : DataSrc),
      isPanic (LockData mm d fuel store cancels)
        = (!(mm.generation == "") || !rewindable d) := by
    intro mm d
    by_cases hg : mm.generation = ""
    · by_cases hrw : rewindable d = true
      · simp [LockData, isPanic, hg, hrw]
      · simp only [Bool.not_eq_true] at hrw
        simp [LockData, isPanic, hg, hrw]
    · simp [LockData, isPanic, hg]
  have hTD : ∀ (mm : Mutex) (d : DataSrc),
      isPanic (TryLockData mm d fuel store cancels)
        = (!(mm.generation == "") || !rewindable d) := by
    intro mm d
    by_cases hg : mm.generation = ""
    · by_cases hrw : rewindable d = true
      · simp [TryLockData, isPanic, hg, hrw]
      · simp only [Bool.not_eq_true] at hrw
        simp [TryLockData, isPanic, hg, hrw]
    · simp [TryLockData, isPanic, hg]
  have hUn : isPanic (Unlock m fuel store cancels) = (m.generation == "") := by
    by_cases hg : m.generation = ""
    · simp [Unlock, isPanic, hg]
    · simp [Unlock, isPanic, hg]
  have hEx : ∀ mm : Mutex,
      isPanic (Extend mm fuel store cancels) = (mm.generation == "") := by
    intro mm
    by_cases hg : mm.generation = ""
    · simp [Extend, isPanic, hg]
    · simp [Extend, isPanic, hg]
  have hUD : ∀ (mm : Mutex) (d : DataSrc),
      isPanic (UpdateData mm d fuel store cancels)
        = ((mm.generation == "") || !rewindable d) := by
    intro mm d
    by_cases hg : mm.generation = ""
    · simp [UpdateData, isPanic, hg]
    · by_cases hrw : rewindable d = true
      · simp [UpdateData, isPanic, hg, hrw]
      · simp only [Bool.not_eq_true] at hrw
        simp [UpdateData, isPanic, hg, hrw]
  have hAb : isPanic (Abandon m) = (m.generation == "") := by
    by_cases hg : m.generation = ""
    · simp [Abandon, isPanic, hg]
    · simp [Abandon, isPanic, hg]
  have hAd : isPanic (Adopt m id fuel store cancels)
      = (!(m.generation == "") || id == "" || id == "0") := by
    by_cases hg : m.generation = ""
    · by_cases hid : id = "" ∨ id = "0"
      · simp only [Adopt]
        rw [if_neg (by simp [hg]), if_pos hid]
        rcases hid with hid | hid <;> simp [isPanic, hg, hid]
      · have hid1 : ¬ id = "" := fun hc => hid (Or.inl hc)
        have hid2 : ¬ id = "0" := fun hc => hid (Or.inr hc)
        simp only [Adopt]
        rw [if_neg (by simp [hg]), if_neg hid]
        rw [hEx { m with generation := id }]
        simp [hg, hid1, hid2]
    · simp [Adopt, isPanic, hg]
  have hAD : ∀ d : DataSrc, isPanic (AdoptData m id d fuel store cancels)
      = (!(m.generation == "") || id == "" || id == "0" || !rewindable d) := by
    intro d
    by_cases hg : m.generation = ""
    · by_cases hid : id = "" ∨ id = "0"
      · simp only [AdoptData]
        rw [if_neg (by simp [hg]), if_pos hid]
        rcases hid with hid | hid <;> simp [isPanic, hg, hid]
      · have hid1 : ¬ id = "" := fun hc => hid (Or.inl hc)
        have hid2 : ¬ id = "0" := fun hc => hid (Or.inr hc)
        simp only [AdoptData]
        rw [if_neg (by simp [hg]), if_neg hid]
        rw [hUD { m with generation := id } d]
        have hb1 : (id == "") = false := by simpa using hid1
        have hb2 : (id == "0") = false := by simpa using hid2
        simp [hg, hb1, hb2]
    · simp [AdoptData, isPanic, hg]
  refine ⟨hLD m data, ?_, hTD m data, ?_, hUn, hEx m, hUD m data, hAb, hAd,
    hAD data, ?_, ?_, ?_, ?_⟩
  · rw [Lock, hLD m .nilReader]
    simp [rewindable]
  · rw [TryLock, hTD m .nilReader]
    simp [rewindable]
  · rw [LockJSON, isPanic_marshalThen, hLD m .bytesReader]
    simp [rewindable]
  · rw [TryLockJSON, isPanic_marshalThen, hTD m]
    cases isPtr <;> simp [rewindable]
  · rw [UpdateJSON, isPanic_marshalThen, hUD m .bytesReader]
    simp [rewindable]
  · rw [AdoptJSON, isPanic_marshalThen, hAD .bytesReader]
    simp [rewindable]

end GMutex

namespace GMutex

/-- Counterexample to claim C9 as frozen: `AdoptData` on an unheld handle
with the valid id "1" but a non-rewindable payload panics (inside the
`UpdateData` it calls), although the claim's iff for Adopt/AdoptData —
held handle or id in {"", "0"} — does not hold here. -/
theorem adoptData_rewindable_counterexample :
    isPanic (AdoptData mDemo "1" .otherReader 1 [] []) = true
    ∧ ¬(mDemo.generation ≠ "" ∨ "1" = "" ∨ "1" = "0") := by
  exact ⟨by decide, by decide⟩

/-- Claim C10: whenever `Adopt` or `AdoptData` runs (does not panic) and
returns an error, the handle's generation remains the adopted id: the
handle stays held, a subsequent `LockData` on it panics, and `Abandon`
does not panic (so the caller can still clear it). -/
theorem adopt_failure_keeps_generation :
    ∀ (m : Mutex) (id : String) (data : DataSrc) (fuel : Nat)
      (store : List StoreEv) (cancels : List Bool) (m2 : Mutex) (out : OpOut),
      (Adopt m id fuel store cancels = .runs (m2, out) → out ≠ OpOut.ok →
        m2.generation = id
          ∧ (∀ d f s c, isPanic (LockData m2 d f s c) = true)
          ∧ isPanic (Abandon m2) = false)
      ∧ (AdoptData m id data fuel store cancels = .runs (m2, out) → out ≠ OpOut.ok →
        m2.generation = id
          ∧ (∀ d f s c, isPanic (LockData m2 d f s c) = true)
          ∧ isPanic (Abandon m2) = false) := by
  intro m id data fuel store cancels m2 out
  have hfin : m2.generation = id → id ≠ "" →
      m2.generation = id
        ∧ (∀ d f s c, isPanic (LockData m2 d f s c) = true)
        ∧ isPanic (Abandon m2) = false := by
    intro hm2 hid1
    refine ⟨hm2, ?_, ?_⟩
    · intro d f s c
      rw [LockData, if_pos (by rw [hm2]; exact hid1)]
      rfl
    · rw [Abandon, if_neg (by rw [hm2]; exact hid1)]
      rfl
  constructor
  · intro h hout
    rw [Adopt] at h
    split at h
    · exact (nomatch h)
    · split at h
      · exact (nomatch h)
      · rename_i hid
        have hid1 : id ≠ "" := fun hc => hid (Or.inl hc)
        rw [Extend, if_neg (by simp [hid1])] at h
        injection h with h
        have hfr := (extendLoop_outcome fuel { m with generation := id } store
            cancels m2 out h).1 hout
        subst hfr
        exact hfin rfl hid1
  · intro h hout
    rw [AdoptData] at h
    split at h
    · exact (nomatch h)
    · split at h
      · exact (nomatch h)
      · rename_i hid
        have hid1 : id ≠ "" := fun hc => hid (Or.inl hc)
        rw [UpdateData, if_neg (by simp [hid1])] at h
        by_cases hrw : rewindable data = true
        · rw [if_neg (by simp [hrw])] at h
          injection h with h
          have hfr := (updateLoop_outcome fuel { m with generation := id } store
              cancels m2 out h).1 hout
          subst hfr
          exact hfin rfl hid1
        · simp only [Bool.not_eq_true] at hrw
          rw [if_pos (by simp [hrw])] at h
          exact (nomatch h)

end GMutex

namespace GMutex

/-- Witness: the C10 theorem applied to an `Adopt` of id "9" whose
proving `Extend` is refused with 412: the handle keeps generation "9",
`LockData` on it panics, `Abandon` does not. -/
theorem adopt_failure_keeps_generation_witness :
    (⟨"bucket", "object", "9", 0⟩ : Mutex).generation = "9"
    ∧ (∀ d f s c, isPanic (LockData ⟨"bucket", "object", "9", 0⟩ d f s c) = true)
    ∧ isPanic (Abandon ⟨"bucket", "object", "9", 0⟩) = false :=
  (adopt_failure_keeps_generation mDemo "9" .nilReader 1
      [.resp { status := 412, gen := "" }] [] ⟨"bucket", "object", "9", 0⟩
      (OpOut.errMsg "extend mutex: stale lock, abort")).1 (by decide) (by decide)

end GMutex
